import Mathlib

/-
  Verification of the economy & wagering engine of the casino chat bot
  (source: src/main.py).

  Modelling conventions:
  * Python unbounded ints are `Int`; balances and statistic counters are `Int`.
  * Timestamps are abstract `Int` time units (seconds); `datetime.utcnow()` is an
    explicit `now` parameter, `timedelta(hours=1)` is 3600 and `timedelta(hours=24)`
    is 86400.  A stored timestamp string is modelled by `TS`: the empty / absent
    value (`""` or `None`, both falsy in Python), an unparsable string
    (raises `ValueError` on `datetime.fromisoformat`), or a parsed time.
  * Date stamps (`str(datetime.utcnow().date())`) are abstract `Nat` day numbers.
  * Randomness is an explicit oracle argument: `random.randint(a, b)` applied to
    oracle value `r` is `a + r % (b - a + 1)` (support exactly `[a, b]`),
    `random.choice(l)` is `l.getD (r % l.length) dflt`, `random.random() > 0.7`
    (the steal failure draw) is an explicit `caught : Bool`, and the weighted
    `random.choices` of the slot machine is an index into the symbol list
    (all weights are positive, so the support is the whole list).
  * `int(mise * 1.8)` in the dice game is embedded as `(9 * mise) / 5`: for the
    positive stakes that reach this expression, Python float truncation agrees
    with exact rational floor for every stake below 2^50.
  * The in-memory `users` dict is `Store := String → Option Account`; mutation of
    a user dict obtained from `get_user_data` is explicit functional update.
  * `save_users()` only performs I/O and is dropped; "persisted state" is the
    store value at the point where the code calls `save_users()`.
-/

namespace Casino

/-- A stored timestamp string: absent/empty, unparsable, or a parsed time. -/
inductive TS where
  | empty : TS
  | bad : TS
  | time : Int → TS
deriving DecidableEq

/-- The per-user record created by `get_user_data` in src/main.py. -/
structure Account where
  balance : Int
  last_daily : TS
  steals : List Nat
  items : List String
  boost_end : TS
  games_played : Int
  total_winnings : Int
  total_losses : Int
deriving DecidableEq

/-- The default record inserted on first access (`get_user_data`). -/
def default_account : Account :=
  { balance := 500, last_daily := .empty, steals := [], items := [],
    boost_end := .empty, games_played := 0, total_winnings := 0, total_losses := 0 }

/-- `has_boost`: true iff `boost_end` is set, parses, and `utcnow() < boost_end`. -/
def has_boost (u : Account) (now : Int) : Bool :=
  match u.boost_end with
  | .time t => now < t
  | _ => false

/-- `get_boost_multiplier` from src/main.py. -/
def get_boost_multiplier (u : Account) (now : Int) : Int :=
  if ¬ has_boost u now then 1
  else if "boost_x3" ∈ u.items then 3
  else if "boost_x2" ∈ u.items then 2
  else 1

/-- `apply_boost` from src/main.py. -/
def apply_boost (montant : Int) (u : Account) (now : Int) : Int :=
  montant * get_boost_multiplier u now

/-- `reset_steals_if_needed`: keep only today's date stamps. -/
def reset_steals_if_needed (u : Account) (today : Nat) : Account :=
  { u with steals := u.steals.filter (· == today) }

/-- `validate_bet` from src/main.py (the returned message is dropped). -/
def validate_bet (u : Account) (mise : Int) : Bool :=
  if mise ≤ 0 then false
  else if mise > u.balance then false
  else true

/-- `record_game_result` from src/main.py. -/
def record_game_result (u : Account) (mise gain : Int) : Account :=
  let u := { u with games_played := u.games_played + 1 }
  if gain > mise then { u with total_winnings := u.total_winnings + (gain - mise) }
  else { u with total_losses := u.total_losses + mise }

/-- The shared `user["balance"] -= mise` step performed by every game right
after `validate_bet` succeeds and before the random outcome is resolved. -/
def place_bet (u : Account) (mise : Int) : Account :=
  { u with balance := u.balance - mise }

/-! ## Shop (`shop_items`, `acheter`) -/

/-- The `shop_items` catalog (name, `prix`); descriptions are display-only. -/
def shop_items : List (String × Int) :=
  [("role_vip", 1000), ("ticket_loterie", 250), ("boost_x2", 1200),
   ("emoji_special", 300), ("badge", 500), ("boost_x3", 2000),
   ("skin_slot", 900), ("extra_steal", 1500)]

/-- `objet.lower().replace(" ", "_")` in `acheter`, char by char (the pattern
being the single character `" "`, Python `replace` is a character map). -/
def normalize_item (objet : String) : String :=
  String.mk ((objet.data.map Char.toLower).map (fun c => if c = ' ' then '_' else c))

/-- Python `"boost" in objet`: some suffix of the string starts with `"boost"`. -/
def mentions_boost : List Char → Bool
  | [] => false
  | c :: cs => (['b', 'o', 'o', 's', 't'].isPrefixOf (c :: cs)) || mentions_boost cs

/-- Outcome of the `acheter` command (the rejection messages of src/main.py). -/
inductive PurchaseResult where
  | unknownItem : PurchaseResult
  | insufficientFunds : PurchaseResult
  | alreadyOwned : PurchaseResult
  | ok : PurchaseResult
deriving DecidableEq

/-- `acheter` from src/main.py: normalize the name, look it up, check funds,
check ownership, then deduct the price, add the item and, when the name
mentions "boost", set `boost_end = utcnow() + timedelta(hours=1)`. -/
def acheter (u : Account) (objet : String) (now : Int) : PurchaseResult × Account :=
  let objet := normalize_item objet
  match shop_items.find? (fun p => p.1 == objet) with
  | none => (.unknownItem, u)
  | some p =>
    let prix := p.2
    if u.balance < prix then (.insufficientFunds, u)
    else if objet ∈ u.items then (.alreadyOwned, u)
    else
      let u := { u with balance := u.balance - prix, items := u.items ++ [objet] }
      let u := if mentions_boost objet.data then { u with boost_end := .time (now + 3600) }
               else u
      (.ok, u)

/-! ## Daily claim, owner credit/debit -/

/-- `daily` from src/main.py: returns the updated account and whether the grant
happened (`false` is the "already claimed, come back later" rejection).  An
unparsable `last_daily` only logs a warning and falls through to the grant. -/
def daily (u : Account) (now : Int) : Account × Bool :=
  let grant :=
    let gain := apply_boost 100 u now
    ({ u with balance := u.balance + gain, last_daily := .time now }, true)
  match u.last_daily with
  | .time t => if now - t < 86400 then (u, false) else grant
  | _ => grant

/-- Owner command `give`: `user["balance"] += amount` with no sign check. -/
def give (u : Account) (amount : Int) : Account :=
  { u with balance := u.balance + amount }

/-- Owner command `remove`: `user["balance"] = max(user["balance"] - amount, 0)`. -/
def remove (u : Account) (amount : Int) : Account :=
  { u with balance := max (u.balance - amount) 0 }

/-! ## Steal -/

/-- Outcome of the `steal` command.  The bot/self target check happens before
any account is read and is part of the excluded adapter. -/
inductive StealResult where
  | quotaExceeded : StealResult
  | victimTooPoor : StealResult
  | caught : StealResult
  | success : Int → StealResult
deriving DecidableEq

/-- `steal` from src/main.py, after the target check: prune the attacker's
steal list to today, check the daily quota (3, or 4 with `extra_steal`),
check the victim has at least 50, then either get caught (quota slot consumed,
no transfer) or transfer `random.randint(20, min(100, victim_balance // 2))`.
`caught` is the `random.random() > 0.7` draw and `r` the `randint` oracle. -/
def steal (attacker victim : Account) (today : Nat) (caught : Bool) (r : Nat) :
    StealResult × Account × Account :=
  let attacker := reset_steals_if_needed attacker today
  let steals_today := attacker.steals
  let max_steals : Nat := if "extra_steal" ∈ attacker.items then 4 else 3
  if steals_today.length ≥ max_steals then (.quotaExceeded, attacker, victim)
  else if victim.balance < 50 then (.victimTooPoor, attacker, victim)
  else if caught then (.caught, { attacker with steals := steals_today ++ [today] }, victim)
  else
    let hi : Int := min 100 (victim.balance / 2)
    let gain : Int := 20 + (r : Int) % (hi - 20 + 1)
    (.success gain,
     { attacker with balance := attacker.balance + gain, steals := steals_today ++ [today] },
     { victim with balance := victim.balance - gain })

/-! ## The in-memory user store (`users` dict) and the `don` transfer -/

/-- The `users` mapping: user-id string to account record. -/
def Store : Type := String → Option Account

/-- The store holding no accounts (fresh start). -/
def empty_store : Store := fun _ => none

/-- Point update of the store (Python dict assignment / in-place mutation). -/
def store_set (store : Store) (uid : String) (a : Account) : Store :=
  fun x => if x = uid then some a else store x

/-- `get_user_data` from src/main.py: return the stored record, inserting the
default record first when the id is absent. -/
def get_user_data (store : Store) (uid : String) : Store × Account :=
  match store uid with
  | some a => (store, a)
  | none => (store_set store uid default_account, default_account)

/-- Outcome of the `don` command (the four rejection messages of src/main.py). -/
inductive DonResult where
  | botTarget : DonResult
  | selfTransfer : DonResult
  | notPositive : DonResult
  | insufficientFunds : DonResult
  | ok : DonResult
deriving DecidableEq

/-- `don` from src/main.py: both accounts are fetched (and lazily created)
before any check; then bot target, self transfer, non-positive amount and
insufficient funds are rejected in that order; otherwise atomic debit+credit. -/
def don (store : Store) (authorId membreId : String) (membreBot : Bool) (montant : Int) :
    Store × DonResult :=
  let p1 := get_user_data store authorId
  let donneur := p1.2
  let p2 := get_user_data p1.1 membreId
  let store := p2.1
  let receveur := p2.2
  if membreBot then (store, .botTarget)
  else if membreId = authorId then (store, .selfTransfer)
  else if montant ≤ 0 then (store, .notPositive)
  else if donneur.balance < montant then (store, .insufficientFunds)
  else
    let store := store_set store authorId { donneur with balance := donneur.balance - montant }
    let store := store_set store membreId { receveur with balance := receveur.balance + montant }
    (store, .ok)

/-! ## Gambling games -/

/-- `coinflip` from src/main.py: validate, deduct, compare two uniform draws
over `["pile", "face"]`, pay `apply_boost(mise * 2)` on a match. -/
def coinflip (u : Account) (now mise : Int) (r1 r2 : Nat) : Account :=
  if validate_bet u mise then
    let u := place_bet u mise
    let player_choice := ["pile", "face"].getD (r1 % 2) "pile"
    let bot_choice := ["pile", "face"].getD (r2 % 2) "pile"
    if player_choice = bot_choice then
      let gain := apply_boost (mise * 2) u now
      record_game_result { u with balance := u.balance + gain } mise gain
    else
      record_game_result u mise 0
  else u

/-- `dice` from src/main.py: validate, deduct, roll `randint(1, 6)` twice;
higher wins `apply_boost(int(mise * 1.8))`, equal refunds the stake. -/
def dice (u : Account) (now mise : Int) (r1 r2 : Nat) : Account :=
  if validate_bet u mise then
    let u := place_bet u mise
    let player_roll := 1 + r1 % 6
    let bot_roll := 1 + r2 % 6
    if player_roll > bot_roll then
      let gain := apply_boost ((9 * mise) / 5) u now
      record_game_result { u with balance := u.balance + gain } mise gain
    else if player_roll = bot_roll then
      record_game_result { u with balance := u.balance + mise } mise mise
    else
      record_game_result u mise 0
  else u

/-- The 37-slot wheel `["rouge"] * 18 + ["noir"] * 18 + ["vert"] * 1`. -/
def roulette_wheel : List String :=
  List.replicate 18 "rouge" ++ List.replicate 18 "noir" ++ ["vert"]

/-- `roulette` from src/main.py: the color token is checked (case-insensitively)
before the account is even read; then validate, deduct, draw from the wheel,
pay `apply_boost(mise * 35)` on green and `apply_boost(mise * 2)` otherwise. -/
def roulette (u : Account) (now mise : Int) (couleur : String) (r : Nat) : Account :=
  let couleur := String.mk (couleur.data.map Char.toLower)
  if couleur ∈ ["rouge", "noir", "vert"] then
    if validate_bet u mise then
      let u := place_bet u mise
      let resultat := roulette_wheel.getD (r % 37) "rouge"
      if couleur = resultat then
        let gain := if couleur = "vert" then apply_boost (mise * 35) u now
                    else apply_boost (mise * 2) u now
        record_game_result { u with balance := u.balance + gain } mise gain
      else
        record_game_result u mise 0
    else u
  else u

/-- `get_card_value`: `random.randint(1, 11)` applied to oracle value `r`. -/
def get_card_value (r : Nat) : Nat := 1 + r % 11

/-- The `while total > 21 and aces > 0` loop of `get_hand_value`, recursing on
the remaining soft-ace count. -/
def reduce_aces : Nat → Nat → Nat
  | total, 0 => total
  | total, aces + 1 => if total > 21 then reduce_aces (total - 10) aces else total

/-- `get_hand_value` from src/main.py: sum the cards, then subtract 10 per
card valued 11 while the total exceeds 21. -/
def get_hand_value (cards : List Nat) : Nat :=
  reduce_aces cards.sum (cards.count 11)

/-- The dealer loop `while dealer_total < 17: dealer_cards.append(...)`,
run with explicit fuel; `none` means the fuel ran out with the loop still
going (shown impossible for fuel 17 in `dealer_draw_terminates`).  `draw n`
is the card appended when the hand holds `n` cards. -/
def dealer_draw : Nat → (Nat → Nat) → List Nat → Option (List Nat)
  | 0, _, cards => if get_hand_value cards < 17 then none else some cards
  | fuel + 1, draw, cards =>
    if get_hand_value cards < 17 then dealer_draw fuel draw (cards ++ [draw cards.length])
    else some cards

/-- `blackjack` from src/main.py: validate, deduct, deal two cards each from
`randint(1, 11)` (oracle indices 0-3; the dealer loop consumes the stream from
index 4 on), let the dealer draw to 17, then resolve: player bust loses, dealer
bust or higher player total wins `apply_boost(mise * 2)`, a tie refunds. -/
def blackjack (u : Account) (now mise : Int) (rs : Nat → Nat) : Account :=
  if validate_bet u mise then
    let u := place_bet u mise
    let player_cards := [get_card_value (rs 0), get_card_value (rs 1)]
    let dealer_start := [get_card_value (rs 2), get_card_value (rs 3)]
    let dealer_cards := (dealer_draw 17 (fun n => get_card_value (rs (2 + n))) dealer_start).getD
      dealer_start
    let player_total := get_hand_value player_cards
    let dealer_total := get_hand_value dealer_cards
    if player_total > 21 then
      record_game_result u mise 0
    else if dealer_total > 21 then
      let gain := apply_boost (mise * 2) u now
      record_game_result { u with balance := u.balance + gain } mise gain
    else if player_total > dealer_total then
      let gain := apply_boost (mise * 2) u now
      record_game_result { u with balance := u.balance + gain } mise gain
    else if player_total = dealer_total then
      record_game_result { u with balance := u.balance + mise } mise mise
    else
      record_game_result u mise 0
  else u

/-- The slot symbols (ASCII stand-ins for the emoji of src/main.py, in catalog
order: apple, orange, lemon, grape, cherry, gem, star, seven). -/
def slot_symbols : List String :=
  ["apple", "orange", "lemon", "grape", "cherry", "gem", "star", "seven"]

/-- The three-of-a-kind payout tiers of `slot`. -/
def slot_triple_multiplier (reel1 : String) : Int :=
  if reel1 = "seven" then 50
  else if reel1 = "star" then 25
  else if reel1 = "gem" then 15
  else if reel1 = "cherry" then 10
  else 5

/-- `slot` from src/main.py: validate, deduct, spin three reels (weighted
draws; every symbol has positive weight, so each oracle index reaches every
symbol), pay `apply_boost(mise * multiplier)` when the multiplier is positive. -/
def slot (u : Account) (now mise : Int) (r1 r2 r3 : Nat) : Account :=
  if validate_bet u mise then
    let u := place_bet u mise
    let reel1 := slot_symbols.getD (r1 % 8) "apple"
    let reel2 := slot_symbols.getD (r2 % 8) "apple"
    let reel3 := slot_symbols.getD (r3 % 8) "apple"
    let multiplier : Int :=
      if reel1 = reel2 ∧ reel2 = reel3 then slot_triple_multiplier reel1
      else if reel1 = reel2 ∨ reel2 = reel3 ∨ reel1 = reel3 then 2
      else 0
    if multiplier > 0 then
      let gain := apply_boost (mise * multiplier) u now
      record_game_result { u with balance := u.balance + gain } mise gain
    else
      record_game_result u mise 0
  else u

/-! ## Helper lemmas -/

lemma get_boost_multiplier_cases (u : Account) (now : Int) :
    get_boost_multiplier u now = 1 ∨ get_boost_multiplier u now = 2 ∨
      get_boost_multiplier u now = 3 := by
  unfold get_boost_multiplier
  split_ifs <;> simp

lemma one_le_get_boost_multiplier (u : Account) (now : Int) :
    1 ≤ get_boost_multiplier u now := by
  rcases get_boost_multiplier_cases u now with h | h | h <;> omega

lemma apply_boost_nonneg (u : Account) (now : Int) {m : Int} (h : 0 ≤ m) :
    0 ≤ apply_boost m u now := by
  have h1 := one_le_get_boost_multiplier u now
  exact mul_nonneg h (by omega)

lemma validate_bet_iff (u : Account) (mise : Int) :
    validate_bet u mise = true ↔ 0 < mise ∧ mise ≤ u.balance := by
  unfold validate_bet
  split_ifs <;> simp <;> omega

lemma record_game_result_balance (u : Account) (mise gain : Int) :
    (record_game_result u mise gain).balance = u.balance := by
  unfold record_game_result
  split_ifs <;> rfl

lemma record_game_result_games_played (u : Account) (mise gain : Int) :
    (record_game_result u mise gain).games_played = u.games_played + 1 := by
  unfold record_game_result
  split_ifs <;> rfl

lemma steal_gain_bounds (vbal : Int) (h : 50 ≤ vbal) (r : Nat) :
    20 ≤ 20 + (r : Int) % (min 100 (vbal / 2) - 20 + 1) ∧
      20 + (r : Int) % (min 100 (vbal / 2) - 20 + 1) ≤ min 100 (vbal / 2) := by
  have h2 : 25 ≤ vbal / 2 := by omega
  have hC : 25 ≤ min 100 (vbal / 2) := le_min (by norm_num) h2
  have h0 : 0 ≤ (r : Int) % (min 100 (vbal / 2) - 20 + 1) :=
    Int.emod_nonneg _ (by omega)
  have h1 : (r : Int) % (min 100 (vbal / 2) - 20 + 1) < min 100 (vbal / 2) - 20 + 1 :=
    Int.emod_lt_of_pos _ (by omega)
  omega

lemma store_set_nonneg {store : Store} {uid : String} {a : Account}
    (hs : ∀ x acc, store x = some acc → 0 ≤ acc.balance) (ha : 0 ≤ a.balance) :
    ∀ x acc, store_set store uid a x = some acc → 0 ≤ acc.balance := by
  intro x acc hx
  unfold store_set at hx
  split at hx
  · cases hx; exact ha
  · exact hs x acc hx

lemma get_user_data_fst_nonneg (store : Store) (uid : String)
    (hs : ∀ x acc, store x = some acc → 0 ≤ acc.balance) :
    ∀ x acc, (get_user_data store uid).1 x = some acc → 0 ≤ acc.balance := by
  unfold get_user_data
  split
  · exact hs
  · exact store_set_nonneg hs (by norm_num [default_account])

lemma get_user_data_snd_nonneg {store : Store} (uid : String)
    (hs : ∀ x acc, store x = some acc → 0 ≤ acc.balance) :
    0 ≤ (get_user_data store uid).2.balance := by
  unfold get_user_data
  split
  · next a ha => exact hs uid a ha
  · norm_num [default_account]

lemma get_user_data_preserves {store : Store} (uid : String) :
    ∀ x acc, store x = some acc → (get_user_data store uid).1 x = some acc := by
  intro x acc hx
  unfold get_user_data
  split
  · exact hx
  · next hnone =>
    dsimp only [store_set]
    split_ifs with hxe
    · subst hxe; rw [hx] at hnone; cases hnone
    · exact hx

lemma get_user_data_lookup {store : Store} (uid : String) :
    (get_user_data store uid).1 uid = some (get_user_data store uid).2 := by
  unfold get_user_data
  split
  · next a ha => exact ha
  · simp [store_set]

lemma coinflip_balance_nonneg (u : Account) (now mise : Int) (r1 r2 : Nat)
    (h : 0 ≤ u.balance) : 0 ≤ (coinflip u now mise r1 r2).balance := by
  unfold coinflip
  by_cases hv : validate_bet u mise = true
  · obtain ⟨hm, hb⟩ := (validate_bet_iff u mise).1 hv
    rw [if_pos hv]
    dsimp only
    split_ifs with hc
    · simp only [record_game_result_balance, place_bet]
      refine add_nonneg (by omega) (apply_boost_nonneg _ _ ?_)
      omega
    · simp only [record_game_result_balance, place_bet]
      omega
  · rw [if_neg hv]
    exact h

lemma dice_balance_nonneg (u : Account) (now mise : Int) (r1 r2 : Nat)
    (h : 0 ≤ u.balance) : 0 ≤ (dice u now mise r1 r2).balance := by
  unfold dice
  by_cases hv : validate_bet u mise = true
  · obtain ⟨hm, hb⟩ := (validate_bet_iff u mise).1 hv
    rw [if_pos hv]
    dsimp only
    split_ifs with hgt heq
    · simp only [record_game_result_balance, place_bet]
      refine add_nonneg (by omega) (apply_boost_nonneg _ _ ?_)
      omega
    · simp only [record_game_result_balance, place_bet]
      omega
    · simp only [record_game_result_balance, place_bet]
      omega
  · rw [if_neg hv]
    exact h

lemma roulette_balance_nonneg (u : Account) (now mise : Int) (c : String) (r : Nat)
    (h : 0 ≤ u.balance) : 0 ≤ (roulette u now mise c r).balance := by
  unfold roulette
  dsimp only
  by_cases hcol : String.mk (c.data.map Char.toLower) ∈ ["rouge", "noir", "vert"]
  · rw [if_pos hcol]
    by_cases hv : validate_bet u mise = true
    · obtain ⟨hm, hb⟩ := (validate_bet_iff u mise).1 hv
      rw [if_pos hv]
      split_ifs with hw hg
      · simp only [record_game_result_balance, place_bet]
        refine add_nonneg (by omega) (apply_boost_nonneg _ _ ?_)
        omega
      · simp only [record_game_result_balance, place_bet]
        refine add_nonneg (by omega) (apply_boost_nonneg _ _ ?_)
        omega
      · simp only [record_game_result_balance, place_bet]
        omega
    · rw [if_neg hv]
      exact h
  · rw [if_neg hcol]
    exact h

lemma blackjack_balance_nonneg (u : Account) (now mise : Int) (rs : Nat → Nat)
    (h : 0 ≤ u.balance) : 0 ≤ (blackjack u now mise rs).balance := by
  unfold blackjack
  by_cases hv : validate_bet u mise = true
  · obtain ⟨hm, hb⟩ := (validate_bet_iff u mise).1 hv
    rw [if_pos hv]
    dsimp only
    split_ifs with h1 h2 h3 h4
    · simp only [record_game_result_balance, place_bet]
      omega
    · simp only [record_game_result_balance, place_bet]
      refine add_nonneg (by omega) (apply_boost_nonneg _ _ ?_)
      omega
    · simp only [record_game_result_balance, place_bet]
      refine add_nonneg (by omega) (apply_boost_nonneg _ _ ?_)
      omega
    · simp only [record_game_result_balance, place_bet]
      omega
    · simp only [record_game_result_balance, place_bet]
      omega
  · rw [if_neg hv]
    exact h

lemma slot_balance_nonneg (u : Account) (now mise : Int) (r1 r2 r3 : Nat)
    (h : 0 ≤ u.balance) : 0 ≤ (slot u now mise r1 r2 r3).balance := by
  unfold slot
  by_cases hv : validate_bet u mise = true
  · obtain ⟨hm, hb⟩ := (validate_bet_iff u mise).1 hv
    rw [if_pos hv]
    dsimp only
    split_ifs
    all_goals simp only [record_game_result_balance, place_bet]
    all_goals try omega
    all_goals
      (refine add_nonneg (by omega) (apply_boost_nonneg _ _ (mul_nonneg (by omega) (by omega))))
  · rw [if_neg hv]
    exact h

lemma daily_balance_nonneg (u : Account) (now : Int)
    (h : 0 ≤ u.balance) : 0 ≤ (daily u now).1.balance := by
  have hg : 0 ≤ apply_boost 100 u now := apply_boost_nonneg _ _ (by norm_num)
  unfold daily
  dsimp only
  split
  · split_ifs with ht
    · exact h
    · dsimp only
      omega
  · dsimp only
    omega

lemma acheter_balance_nonneg (u : Account) (objet : String) (now : Int)
    (h : 0 ≤ u.balance) : 0 ≤ (acheter u objet now).2.balance := by
  unfold acheter
  dsimp only
  split
  · exact h
  · split_ifs with hp ho hb
    · exact h
    · exact h
    · dsimp only
      omega
    · dsimp only
      omega

lemma steal_balances_nonneg (attacker victim : Account) (today : Nat) (c : Bool) (r : Nat)
    (ha : 0 ≤ attacker.balance) (hv : 0 ≤ victim.balance) :
    0 ≤ (steal attacker victim today c r).2.1.balance ∧
      0 ≤ (steal attacker victim today c r).2.2.balance := by
  unfold steal
  dsimp only [reset_steals_if_needed]
  split_ifs
  all_goals try exact ⟨ha, hv⟩
  all_goals
    (have hv50 : 50 ≤ victim.balance := by omega
     obtain ⟨h1, h2⟩ := steal_gain_bounds victim.balance hv50 r
     have hA : min 100 (victim.balance / 2) ≤ victim.balance / 2 := min_le_right _ _
     refine ⟨?_, ?_⟩ <;> dsimp only <;> omega)

lemma don_balances_nonneg (store : Store) (a m : String) (bot : Bool) (montant : Int)
    (hs : ∀ x acc, store x = some acc → 0 ≤ acc.balance) :
    ∀ x acc, (don store a m bot montant).1 x = some acc → 0 ≤ acc.balance := by
  unfold don
  dsimp only
  have hs1 := get_user_data_fst_nonneg store a hs
  have hs2 := get_user_data_fst_nonneg (get_user_data store a).1 m hs1
  have hd : 0 ≤ (get_user_data store a).2.balance := get_user_data_snd_nonneg a hs
  have hr : 0 ≤ (get_user_data (get_user_data store a).1 m).2.balance :=
    get_user_data_snd_nonneg m hs1
  split_ifs with hbot hself hpos hfunds
  · exact hs2
  · exact hs2
  · exact hs2
  · exact hs2
  · refine store_set_nonneg (store_set_nonneg hs2 ?_) ?_
    · dsimp only
      omega
    · dsimp only
      omega

lemma reduce_aces_ge (aces total : Nat) : total - 10 * aces ≤ reduce_aces total aces := by
  induction aces generalizing total with
  | zero => simp [reduce_aces]
  | succ n ih =>
    unfold reduce_aces
    split_ifs with hgt
    · have := ih (total - 10)
      omega
    · omega

lemma reduce_aces_le (aces total : Nat) : reduce_aces total aces ≤ total := by
  induction aces generalizing total with
  | zero => simp [reduce_aces]
  | succ n ih =>
    unfold reduce_aces
    split_ifs with hgt
    · have := ih (total - 10)
      omega
    · omega

lemma sum_ge_length_add_aces (cards : List Nat) (h : ∀ c ∈ cards, 1 ≤ c) :
    cards.length + 10 * cards.count 11 ≤ cards.sum := by
  induction cards with
  | nil => simp
  | cons c cs ih =>
    have hc := h c (by simp)
    have ih' := ih (fun x hx => h x (by simp [hx]))
    rcases eq_or_ne c 11 with h11 | h11
    · subst h11
      have : (11 :: cs).count 11 = cs.count 11 + 1 := by
        simp [List.count_cons]
      simp only [this, List.sum_cons, List.length_cons]
      omega
    · have : (c :: cs).count 11 = cs.count 11 := by
        simp [List.count_cons, h11]
      simp only [this, List.sum_cons, List.length_cons]
      omega

lemma hand_value_ge_length (cards : List Nat) (h : ∀ c ∈ cards, 1 ≤ c) :
    cards.length ≤ get_hand_value cards := by
  have h1 := reduce_aces_ge (cards.count 11) cards.sum
  have h2 := sum_ge_length_add_aces cards h
  unfold get_hand_value
  omega

lemma dealer_draw_terminates (fuel : Nat) (draw : Nat → Nat) (cards : List Nat)
    (hcards : ∀ c ∈ cards, 1 ≤ c) (hdraw : ∀ n, 1 ≤ draw n)
    (hfuel : 17 ≤ cards.length + fuel) :
    ∃ final, dealer_draw fuel draw cards = some final ∧ 17 ≤ get_hand_value final := by
  induction fuel generalizing cards with
  | zero =>
    have h1 := hand_value_ge_length cards hcards
    refine ⟨cards, ?_, by omega⟩
    unfold dealer_draw
    rw [if_neg (by omega)]
  | succ n ih =>
    by_cases hlt : get_hand_value cards < 17
    · have hmem : ∀ c ∈ cards ++ [draw cards.length], 1 ≤ c := by
        intro c hmemc
        rcases List.mem_append.1 hmemc with hin | hin
        · exact hcards c hin
        · simp only [List.mem_singleton] at hin
          subst hin
          exact hdraw _
      obtain ⟨final, hfin, hge⟩ := ih (cards ++ [draw cards.length]) hmem
        (by simp; omega)
      refine ⟨final, ?_, hge⟩
      unfold dealer_draw
      rw [if_pos hlt]
      exact hfin
    · refine ⟨cards, ?_, by omega⟩
      unfold dealer_draw
      rw [if_neg hlt]

lemma validate_bet_false (u : Account) (mise : Int) (h : mise ≤ 0 ∨ u.balance < mise) :
    validate_bet u mise = false := by
  cases hvb : validate_bet u mise
  · rfl
  · obtain ⟨h1, h2⟩ := (validate_bet_iff u mise).1 hvb
    omega

lemma invalid_bet_games_unchanged (u : Account) (mise : Int)
    (hf : validate_bet u mise = false) :
    (∀ now r1 r2, coinflip u now mise r1 r2 = u) ∧
    (∀ now r1 r2, dice u now mise r1 r2 = u) ∧
    (∀ now c r, roulette u now mise c r = u) ∧
    (∀ now rs, blackjack u now mise rs = u) ∧
    (∀ now r1 r2 r3, slot u now mise r1 r2 r3 = u) := by
  refine ⟨?_, ?_, ?_, ?_, ?_⟩
  · intro now r1 r2
    simp [coinflip, hf]
  · intro now r1 r2
    simp [dice, hf]
  · intro now c r
    simp [roulette, hf]
  · intro now rs
    simp [blackjack, hf]
  · intro now r1 r2 r3
    simp [slot, hf]

lemma roulette_bad_color_unchanged (u : Account) (now mise : Int) (c : String) (r : Nat)
    (h : String.mk (c.data.map Char.toLower) ∉ ["rouge", "noir", "vert"]) :
    roulette u now mise c r = u := by
  unfold roulette
  dsimp only
  rw [if_neg h]

lemma acheter_result_cases (u : Account) (objet : String) (now : Int) :
    (acheter u objet now).1 = PurchaseResult.ok ∨ (acheter u objet now).2 = u := by
  unfold acheter
  dsimp only
  split
  · exact Or.inr rfl
  · split_ifs with hp ho hb
    · exact Or.inr rfl
    · exact Or.inr rfl
    · exact Or.inl rfl
    · exact Or.inl rfl

lemma steal_quota_eq (attacker victim : Account) (today : Nat) (c : Bool) (r : Nat)
    (hq : (if "extra_steal" ∈ attacker.items then 4 else 3) ≤
          (reset_steals_if_needed attacker today).steals.length) :
    steal attacker victim today c r =
      (StealResult.quotaExceeded, reset_steals_if_needed attacker today, victim) := by
  unfold reset_steals_if_needed at hq
  dsimp only at hq
  unfold steal reset_steals_if_needed
  dsimp only
  rw [if_pos hq]

lemma steal_poor_eq (attacker victim : Account) (today : Nat) (c : Bool) (r : Nat)
    (hq : (reset_steals_if_needed attacker today).steals.length <
          (if "extra_steal" ∈ attacker.items then 4 else 3))
    (hp : victim.balance < 50) :
    steal attacker victim today c r =
      (StealResult.victimTooPoor, reset_steals_if_needed attacker today, victim) := by
  unfold reset_steals_if_needed at hq
  dsimp only at hq
  unfold steal reset_steals_if_needed
  dsimp only
  rw [if_neg (by omega), if_pos hp]

lemma steal_success_eq (attacker victim : Account) (today : Nat) (r : Nat)
    (hq : (reset_steals_if_needed attacker today).steals.length <
          (if "extra_steal" ∈ attacker.items then 4 else 3))
    (hp : 50 ≤ victim.balance) :
    steal attacker victim today false r =
      (StealResult.success (20 + (r : Int) % (min 100 (victim.balance / 2) - 20 + 1)),
       { attacker with
           balance := attacker.balance + (20 + (r : Int) % (min 100 (victim.balance / 2) - 20 + 1)),
           steals := (reset_steals_if_needed attacker today).steals ++ [today] },
       { victim with
           balance := victim.balance - (20 + (r : Int) % (min 100 (victim.balance / 2) - 20 + 1)) }) := by
  unfold reset_steals_if_needed at hq
  dsimp only at hq
  unfold steal reset_steals_if_needed
  dsimp only
  rw [if_neg (by omega), if_neg (by omega), if_neg (by simp)]

lemma daily_reject_eq (u : Account) (now t : Int) (hld : u.last_daily = TS.time t)
    (ht : now - t < 86400) : daily u now = (u, false) := by
  unfold daily
  rw [hld]
  dsimp only
  rw [if_pos ht]

lemma get_boost_multiplier_place_bet (u : Account) (mise now : Int) :
    get_boost_multiplier (place_bet u mise) now = get_boost_multiplier u now := rfl

lemma place_bet_balance (u : Account) (mise : Int) :
    (place_bet u mise).balance = u.balance - mise := rfl

lemma one_le_get_card_value (r : Nat) : 1 ≤ get_card_value r := by
  unfold get_card_value
  omega

/-! ## Claims -/

/-- C1 (counterexample): the claim that every operation — including the
owner-only credit command `give` with any integer amount — leaves every
balance nonnegative is false: on the freshly created default account
(balance 500), `give` with amount -600 stores balance -100. -/
theorem c1_counterexample :
    (give default_account (-600)).balance = -100 ∧
      ¬ 0 ≤ (give default_account (-600)).balance := by
  constructor <;> decide

/-- C1 (amended): starting from nonnegative balances, every operation keeps
every stored balance nonnegative — daily claim, the five games, shop purchase,
steal (both accounts), the `don` transfer (every record of the store), `remove`
with any integer amount — except that `give` preserves nonnegativity only for
a nonnegative amount argument. -/
theorem c1_amended :
    (∀ u : Account, 0 ≤ u.balance →
      (∀ now, 0 ≤ (daily u now).1.balance) ∧
      (∀ now mise r1 r2, 0 ≤ (coinflip u now mise r1 r2).balance) ∧
      (∀ now mise r1 r2, 0 ≤ (dice u now mise r1 r2).balance) ∧
      (∀ now mise c r, 0 ≤ (roulette u now mise c r).balance) ∧
      (∀ now mise rs, 0 ≤ (blackjack u now mise rs).balance) ∧
      (∀ now mise r1 r2 r3, 0 ≤ (slot u now mise r1 r2 r3).balance) ∧
      (∀ objet now, 0 ≤ (acheter u objet now).2.balance) ∧
      (∀ amount : Int, 0 ≤ amount → 0 ≤ (give u amount).balance) ∧
      (∀ amount : Int, 0 ≤ (remove u amount).balance) ∧
      (∀ v today c r, 0 ≤ v.balance →
        0 ≤ (steal u v today c r).2.1.balance ∧ 0 ≤ (steal u v today c r).2.2.balance)) ∧
    (∀ store a m bot montant, (∀ x acc, store x = some acc → 0 ≤ acc.balance) →
      ∀ x acc, (don store a m bot montant).1 x = some acc → 0 ≤ acc.balance) := by
  constructor
  · intro u h
    refine ⟨fun now => daily_balance_nonneg u now h,
            fun now mise r1 r2 => coinflip_balance_nonneg u now mise r1 r2 h,
            fun now mise r1 r2 => dice_balance_nonneg u now mise r1 r2 h,
            fun now mise c r => roulette_balance_nonneg u now mise c r h,
            fun now mise rs => blackjack_balance_nonneg u now mise rs h,
            fun now mise r1 r2 r3 => slot_balance_nonneg u now mise r1 r2 r3 h,
            fun objet now => acheter_balance_nonneg u objet now h,
            fun amount ha => ?_,
            fun amount => ?_,
            fun v today c r hv => steal_balances_nonneg u v today c r h hv⟩
    · unfold give
      dsimp only
      omega
    · unfold remove
      dsimp only
      exact le_max_right _ _
  · exact don_balances_nonneg

/-- C1 witness: the amended invariant applied to the default account. -/
theorem c1_amended_witness : 0 ≤ (daily default_account 0).1.balance :=
  (c1_amended.1 default_account (by decide)).1 0

/-- C2: for every stake `s` with `0 < s ≤ balance`, `validate_bet` accepts and
the shared deduction step (run before the random outcome is resolved in every
game) leaves exactly `balance - s`; a stake `≤ 0` or exceeding the balance
fails validation and every game returns the account unchanged, with nothing
deducted. -/
theorem c2_bet_validation (u : Account) (mise : Int) :
    (0 < mise → mise ≤ u.balance →
      validate_bet u mise = true ∧ (place_bet u mise).balance = u.balance - mise) ∧
    (mise ≤ 0 ∨ u.balance < mise →
      validate_bet u mise = false ∧
      (∀ now r1 r2, coinflip u now mise r1 r2 = u) ∧
      (∀ now r1 r2, dice u now mise r1 r2 = u) ∧
      (∀ now c r, roulette u now mise c r = u) ∧
      (∀ now rs, blackjack u now mise rs = u) ∧
      (∀ now r1 r2 r3, slot u now mise r1 r2 r3 = u)) := by
  constructor
  · intro h1 h2
    exact ⟨(validate_bet_iff u mise).2 ⟨h1, h2⟩, rfl⟩
  · intro h
    have hf := validate_bet_false u mise h
    exact ⟨hf, invalid_bet_games_unchanged u mise hf⟩

/-- C2 witness: a stake of 100 against the default balance of 500. -/
theorem c2_bet_validation_witness :
    validate_bet default_account 100 = true ∧
      (place_bet default_account 100).balance = default_account.balance - 100 :=
  (c2_bet_validation default_account 100).1 (by decide) (by decide)

/-- C3: `record_game_result` increments `games_played` by exactly 1, credits
`gain - mise` to `total_winnings` only when the payout strictly exceeds the
stake, and otherwise adds the full stake to `total_losses` — so a push
(`gain = mise`, the dice or blackjack tie) adds the stake to `total_losses`
while leaving the balance net unchanged; and every game's completed call runs
it exactly once. -/
theorem c3_statistics (u : Account) (mise gain : Int) :
    (record_game_result u mise gain).games_played = u.games_played + 1 ∧
    (mise < gain →
      (record_game_result u mise gain).total_winnings = u.total_winnings + (gain - mise) ∧
      (record_game_result u mise gain).total_losses = u.total_losses) ∧
    (gain ≤ mise →
      (record_game_result u mise gain).total_losses = u.total_losses + mise ∧
      (record_game_result u mise gain).total_winnings = u.total_winnings) ∧
    (validate_bet u mise = true →
      (∀ now r1 r2, (coinflip u now mise r1 r2).games_played = u.games_played + 1) ∧
      (∀ now r1 r2, (dice u now mise r1 r2).games_played = u.games_played + 1) ∧
      (∀ now c r, String.mk (c.data.map Char.toLower) ∈ ["rouge", "noir", "vert"] →
        (roulette u now mise c r).games_played = u.games_played + 1) ∧
      (∀ now rs, (blackjack u now mise rs).games_played = u.games_played + 1) ∧
      (∀ now r1 r2 r3, (slot u now mise r1 r2 r3).games_played = u.games_played + 1)) ∧
    (∀ now r1 r2, validate_bet u mise = true → 1 + r1 % 6 = 1 + r2 % 6 →
      (dice u now mise r1 r2).total_losses = u.total_losses + mise ∧
      (dice u now mise r1 r2).balance = u.balance) := by
  refine ⟨record_game_result_games_played u mise gain, ?_, ?_, ?_, ?_⟩
  · intro hgt
    unfold record_game_result
    rw [if_pos (by omega)]
    exact ⟨rfl, rfl⟩
  · intro hle
    unfold record_game_result
    rw [if_neg (by omega)]
    exact ⟨rfl, rfl⟩
  · intro hv
    refine ⟨?_, ?_, ?_, ?_, ?_⟩
    · intro now r1 r2
      unfold coinflip
      rw [if_pos hv]
      dsimp only
      split_ifs <;> simp [record_game_result_games_played, place_bet]
    · intro now r1 r2
      unfold dice
      rw [if_pos hv]
      dsimp only
      split_ifs <;> simp [record_game_result_games_played, place_bet]
    · intro now c r hcol
      unfold roulette
      dsimp only
      rw [if_pos hcol, if_pos hv]
      split_ifs <;> simp [record_game_result_games_played, place_bet]
    · intro now rs
      unfold blackjack
      rw [if_pos hv]
      dsimp only
      split_ifs <;> simp [record_game_result_games_played, place_bet]
    · intro now r1 r2 r3
      unfold slot
      rw [if_pos hv]
      dsimp only
      split_ifs <;> simp [record_game_result_games_played, place_bet]
  · intro now r1 r2 hv heq
    unfold dice
    rw [if_pos hv]
    dsimp only
    rw [if_neg (by omega), if_pos heq]
    unfold record_game_result
    rw [if_neg (by omega)]
    dsimp only [place_bet]
    constructor
    · rfl
    · omega

/-- C3 witness: a push with stake 50 counts the stake as a loss and bumps
`games_played`. -/
theorem c3_statistics_witness :
    (record_game_result default_account 50 50).total_losses =
        default_account.total_losses + 50 ∧
      (record_game_result default_account 50 50).games_played =
        default_account.games_played + 1 :=
  ⟨((c3_statistics default_account 50 50).2.2.1 (by decide)).1,
   (c3_statistics default_account 50 50).1⟩

/-- C4 (counterexample): a rejected command can still mutate the account
store: `don` fetches both parties before validating, so a self-transfer
rejection on a fresh store creates the caller's default record. -/
theorem c4_counterexample :
    (don empty_store "a" "a" false 5).2 = DonResult.selfTransfer ∧
      empty_store "a" = none ∧
      (don empty_store "a" "a" false 5).1 "a" = some default_account := by
  refine ⟨rfl, rfl, rfl⟩

/-- C4 (amended): every rejection path leaves every preexisting account record
unchanged — no balance, item, timestamp, or counter change — except that
accounts touched before validation are lazily created with the default
record, and `steal` prunes stale (non-today) steal timestamps from the
attacker even while rejecting. -/
theorem c4_amended :
    (∀ (store : Store) (a m : String) (bot : Bool) (montant : Int),
      (bot = true ∨ m = a ∨ montant ≤ 0 ∨ (get_user_data store a).2.balance < montant) →
      (don store a m bot montant).2 ≠ DonResult.ok ∧
      ∀ x acc, store x = some acc → (don store a m bot montant).1 x = some acc) ∧
    (∀ (u : Account) (mise : Int), mise ≤ 0 ∨ u.balance < mise →
      (∀ now r1 r2, coinflip u now mise r1 r2 = u) ∧
      (∀ now r1 r2, dice u now mise r1 r2 = u) ∧
      (∀ now c r, roulette u now mise c r = u) ∧
      (∀ now rs, blackjack u now mise rs = u) ∧
      (∀ now r1 r2 r3, slot u now mise r1 r2 r3 = u)) ∧
    (∀ (u : Account) (now mise : Int) (c : String) (r : Nat),
      String.mk (c.data.map Char.toLower) ∉ ["rouge", "noir", "vert"] →
      roulette u now mise c r = u) ∧
    (∀ (u : Account) (objet : String) (now : Int),
      (acheter u objet now).1 ≠ PurchaseResult.ok → (acheter u objet now).2 = u) ∧
    (∀ (attacker victim : Account) (today : Nat) (c : Bool) (r : Nat),
      ((if "extra_steal" ∈ attacker.items then 4 else 3) ≤
          (reset_steals_if_needed attacker today).steals.length →
        steal attacker victim today c r =
          (StealResult.quotaExceeded, reset_steals_if_needed attacker today, victim)) ∧
      ((reset_steals_if_needed attacker today).steals.length <
          (if "extra_steal" ∈ attacker.items then 4 else 3) →
        victim.balance < 50 →
        steal attacker victim today c r =
          (StealResult.victimTooPoor, reset_steals_if_needed attacker today, victim))) ∧
    (∀ (u : Account) (now t : Int), u.last_daily = TS.time t → now - t < 86400 →
      daily u now = (u, false)) := by
  refine ⟨?_, ?_, ?_, ?_, ?_, ?_⟩
  · intro store a m bot montant hrej
    unfold don
    dsimp only
    split_ifs with h1 h2 h3 h4
    · exact ⟨by simp, fun x acc hx =>
        get_user_data_preserves m x acc (get_user_data_preserves a x acc hx)⟩
    · exact ⟨by simp, fun x acc hx =>
        get_user_data_preserves m x acc (get_user_data_preserves a x acc hx)⟩
    · exact ⟨by simp, fun x acc hx =>
        get_user_data_preserves m x acc (get_user_data_preserves a x acc hx)⟩
    · exact ⟨by simp, fun x acc hx =>
        get_user_data_preserves m x acc (get_user_data_preserves a x acc hx)⟩
    · exfalso
      rcases hrej with hb | hs | hm | hf
      · exact h1 hb
      · exact h2 hs
      · exact h3 hm
      · exact h4 hf
  · intro u mise h
    exact invalid_bet_games_unchanged u mise (validate_bet_false u mise h)
  · intro u now mise c r h
    exact roulette_bad_color_unchanged u now mise c r h
  · intro u objet now hne
    rcases acheter_result_cases u objet now with hok | hu
    · exact absurd hok hne
    · exact hu
  · intro attacker victim today c r
    exact ⟨steal_quota_eq attacker victim today c r,
           fun hq hp => steal_poor_eq attacker victim today c r hq hp⟩
  · intro u now t hld ht
    exact daily_reject_eq u now t hld ht

/-- C4 witness: an invalid stake leaves the default account untouched. -/
theorem c4_amended_witness : coinflip default_account 0 0 0 0 = default_account :=
  (c4_amended.2.1 default_account 0 (Or.inl (by decide))).1 0 0 0

/-- C5 (counterexample): an account that already owns `boost_x2` but cannot
afford it is rejected with the insufficient-funds message, not AlreadyOwned —
the funds check precedes the ownership check in `acheter`. -/
theorem c5_counterexample :
    "boost_x2" ∈ ({ default_account with balance := 0, items := ["boost_x2"] } :
        Account).items ∧
      (acheter { default_account with balance := 0, items := ["boost_x2"] }
          "boost_x2" 0).1 = PurchaseResult.insufficientFunds ∧
      (acheter { default_account with balance := 0, items := ["boost_x2"] }
          "boost_x2" 0).1 ≠ PurchaseResult.alreadyOwned := by
  refine ⟨by decide, by decide, by decide⟩

/-- C5 (amended): repurchasing an owned catalog item is always rejected with
the account unchanged; the rejection is `AlreadyOwned` when the account can
afford the price, and `InsufficientFunds` (checked first) when it cannot. -/
theorem c5_amended (u : Account) (objet : String) (now : Int) (pr : String × Int)
    (hfind : shop_items.find? (fun p => p.1 == normalize_item objet) = some pr)
    (howned : normalize_item objet ∈ u.items) :
    (acheter u objet now).2 = u ∧
    (u.balance < pr.2 → (acheter u objet now).1 = PurchaseResult.insufficientFunds) ∧
    (pr.2 ≤ u.balance → (acheter u objet now).1 = PurchaseResult.alreadyOwned) := by
  unfold acheter
  dsimp only
  rw [hfind]
  dsimp only
  by_cases hlt : u.balance < pr.2
  · rw [if_pos hlt]
    exact ⟨rfl, fun _ => rfl, fun hle => absurd hlt (by omega)⟩
  · rw [if_neg hlt, if_pos howned]
    exact ⟨rfl, fun hlt2 => absurd hlt2 hlt, fun _ => rfl⟩

/-- C5 witness: with enough balance, the repurchase rejection is AlreadyOwned
and the account is unchanged. -/
theorem c5_amended_witness :
    (acheter { default_account with balance := 2000, items := ["boost_x2"] }
        "boost_x2" 0).1 = PurchaseResult.alreadyOwned ∧
      (acheter { default_account with balance := 2000, items := ["boost_x2"] }
          "boost_x2" 0).2 =
        { default_account with balance := 2000, items := ["boost_x2"] } := by
  have h := c5_amended { default_account with balance := 2000, items := ["boost_x2"] }
    "boost_x2" 0 ("boost_x2", 1200) (by decide) (by decide)
  exact ⟨h.2.2 (by decide), h.1⟩

/-- C6 (counterexample): the quota check precedes the victim-balance check, so
with the day's quota already used the code rejects a 40-coin victim with
QuotaExceeded, not VictimTooPoor — refuting "VictimTooPoor whenever the
victim's balance is below 50". -/
theorem c6_counterexample :
    ({ default_account with balance := 40 } : Account).balance < 50 ∧
      (steal { default_account with steals := [0, 0, 0] }
          { default_account with balance := 40 } 0 false 0).1 =
        StealResult.quotaExceeded ∧
      (steal { default_account with steals := [0, 0, 0] }
          { default_account with balance := 40 } 0 false 0).1 ≠
        StealResult.victimTooPoor := by
  refine ⟨by decide, by decide, by decide⟩

/-- C6 (amended): provided the attacker's pruned daily quota is not yet
exhausted, a victim balance below 50 is rejected with VictimTooPoor and no
quota entry is recorded; a successful (not caught) steal transfers exactly one
amount `g` with `20 ≤ g ≤ min 100 (victimBalance / 2)` — every such `g` is
attained by some draw, and the range is `[20, 100]` for victim balance 200 —
debiting the victim, crediting the attacker and recording one quota entry. -/
theorem c6_steal (attacker victim : Account) (today : Nat) (c : Bool) (r : Nat)
    (hq : (reset_steals_if_needed attacker today).steals.length <
          (if "extra_steal" ∈ attacker.items then 4 else 3)) :
    (victim.balance < 50 →
      steal attacker victim today c r =
        (StealResult.victimTooPoor, reset_steals_if_needed attacker today, victim)) ∧
    (50 ≤ victim.balance →
      ∃ g : Int, 20 ≤ g ∧ g ≤ min 100 (victim.balance / 2) ∧
        steal attacker victim today false r =
          (StealResult.success g,
           { attacker with
               balance := attacker.balance + g,
               steals := (reset_steals_if_needed attacker today).steals ++ [today] },
           { victim with balance := victim.balance - g })) ∧
    (∀ g : Int, 20 ≤ g → g ≤ min 100 (victim.balance / 2) → 50 ≤ victim.balance →
      (steal attacker victim today false (g - 20).toNat).1 = StealResult.success g) ∧
    (victim.balance = 200 → min 100 (victim.balance / 2) = 100) := by
  refine ⟨fun hp => steal_poor_eq attacker victim today c r hq hp, ?_, ?_, ?_⟩
  · intro hp
    exact ⟨20 + (r : Int) % (min 100 (victim.balance / 2) - 20 + 1),
           (steal_gain_bounds victim.balance hp r).1,
           (steal_gain_bounds victim.balance hp r).2,
           steal_success_eq attacker victim today r hq hp⟩
  · intro g h20 hle hp
    rw [steal_success_eq attacker victim today ((g - 20).toNat) hq hp]
    dsimp only
    have h2 : 25 ≤ victim.balance / 2 := by omega
    have hC : 25 ≤ min 100 (victim.balance / 2) := le_min (by norm_num) h2
    have htn : (((g - 20).toNat : Nat) : Int) = g - 20 := Int.toNat_of_nonneg (by omega)
    rw [htn, Int.emod_eq_of_lt (by omega) (by omega)]
    congr 1
    omega
  · intro h200
    rw [h200]
    norm_num

/-- C6 witness: a 40-coin victim with a fresh attacker gives VictimTooPoor. -/
theorem c6_steal_witness :
    steal default_account { default_account with balance := 40 } 0 false 0 =
      (StealResult.victimTooPoor, reset_steals_if_needed default_account 0,
       { default_account with balance := 40 }) :=
  (c6_steal default_account { default_account with balance := 40 } 0 false 0
    (by decide)).1 (by decide)

/-- C7: the boost multiplier is always in {1, 2, 3}: 1 without an active boost
(`boost_end` absent, unparsable — treated as "no boost", not an error — or not
strictly greater than now), else 3 with the triple-boost item, else 2 with the
double-boost item, else 1. -/
theorem c7_boost (u : Account) (now : Int) :
    (get_boost_multiplier u now = 1 ∨ get_boost_multiplier u now = 2 ∨
      get_boost_multiplier u now = 3) ∧
    (has_boost u now = false → get_boost_multiplier u now = 1) ∧
    (u.boost_end = TS.empty → has_boost u now = false) ∧
    (u.boost_end = TS.bad → has_boost u now = false) ∧
    (∀ t, u.boost_end = TS.time t → (has_boost u now = true ↔ now < t)) ∧
    (has_boost u now = true → "boost_x3" ∈ u.items → get_boost_multiplier u now = 3) ∧
    (has_boost u now = true → "boost_x3" ∉ u.items → "boost_x2" ∈ u.items →
      get_boost_multiplier u now = 2) ∧
    (has_boost u now = true → "boost_x3" ∉ u.items → "boost_x2" ∉ u.items →
      get_boost_multiplier u now = 1) := by
  refine ⟨get_boost_multiplier_cases u now, ?_, ?_, ?_, ?_, ?_, ?_, ?_⟩
  · intro hb
    unfold get_boost_multiplier
    rw [if_pos (by simp [hb])]
  · intro he
    unfold has_boost
    rw [he]
  · intro he
    unfold has_boost
    rw [he]
  · intro t ht
    unfold has_boost
    rw [ht]
    exact decide_eq_true_iff
  · intro hb h3
    unfold get_boost_multiplier
    rw [if_neg (by simp [hb]), if_pos h3]
  · intro hb h3 h2
    unfold get_boost_multiplier
    rw [if_neg (by simp [hb]), if_neg h3, if_pos h2]
  · intro hb h3 h2
    unfold get_boost_multiplier
    rw [if_neg (by simp [hb]), if_neg h3, if_neg h2]

/-- C7 witness: an unexpired boost with the triple item gives multiplier 3. -/
theorem c7_boost_witness :
    get_boost_multiplier
      { default_account with items := ["boost_x3"], boost_end := TS.time 10 } 5 = 3 :=
  (c7_boost { default_account with items := ["boost_x3"], boost_end := TS.time 10 }
    5).2.2.2.2.2.1 (by decide) (by decide)

/-- C8: the blackjack hand reducer sums the cards, then subtracts 10 per soft
ace while the total exceeds 21 and aces remain; `[11, 11, 10]` reduces to 12
and `[10, 10, 5]` is 25, a bust. -/
theorem c8_hand_value :
    get_hand_value [11, 11, 10] = 12 ∧
    get_hand_value [10, 10, 5] = 25 ∧ 21 < get_hand_value [10, 10, 5] ∧
    (∀ total aces : Nat, total ≤ 21 → reduce_aces total aces = total) ∧
    (∀ total aces : Nat, 21 < total →
      reduce_aces total (aces + 1) = reduce_aces (total - 10) aces) ∧
    (∀ cards : List Nat, cards.sum ≤ 21 → get_hand_value cards = cards.sum) := by
  refine ⟨by decide, by decide, by decide, ?_, ?_, ?_⟩
  · intro total aces h
    cases aces with
    | zero => rfl
    | succ n =>
      unfold reduce_aces
      rw [if_neg (by omega)]
  · intro total aces h
    simp only [reduce_aces]
    rw [if_pos (by omega)]
  · intro cards h
    unfold get_hand_value
    cases hc : cards.count 11 with
    | zero => rfl
    | succ n =>
      unfold reduce_aces
      rw [if_neg (by omega)]

/-- C8 witness: a one-card hand below 21 is its plain sum. -/
theorem c8_hand_value_witness : get_hand_value [5] = [5].sum :=
  c8_hand_value.2.2.2.2.2 [5] (by decide)

/-- C9: in the dice duel with a validated stake, equal rolls refund the stake
exactly (balance restored to its pre-bet value), a strictly higher caller roll
credits exactly `floor(1.8 * stake) * multiplier` on top of the deducted
stake, and a lower roll forfeits the deducted stake. -/
theorem c9_dice (u : Account) (now mise : Int) (r1 r2 : Nat)
    (hv : validate_bet u mise = true) :
    (1 + r1 % 6 = 1 + r2 % 6 → (dice u now mise r1 r2).balance = u.balance) ∧
    (1 + r1 % 6 > 1 + r2 % 6 →
      (dice u now mise r1 r2).balance =
        u.balance - mise + 9 * mise / 5 * get_boost_multiplier u now) ∧
    (1 + r1 % 6 < 1 + r2 % 6 → (dice u now mise r1 r2).balance = u.balance - mise) := by
  have hab : apply_boost (9 * mise / 5) (place_bet u mise) now =
      9 * mise / 5 * get_boost_multiplier u now := by
    unfold apply_boost
    rw [get_boost_multiplier_place_bet]
  unfold dice
  rw [if_pos hv]
  dsimp only
  refine ⟨?_, ?_, ?_⟩
  · intro heq
    rw [if_neg (by omega), if_pos heq]
    simp only [record_game_result_balance, place_bet_balance]
    omega
  · intro hgt
    rw [if_pos hgt]
    simp only [record_game_result_balance, place_bet_balance, hab]
  · intro hlt
    rw [if_neg (by omega), if_neg (by omega)]
    simp only [record_game_result_balance, place_bet_balance]

/-- C9 witness: a tie at stake 100 leaves the default balance unchanged. -/
theorem c9_dice_witness :
    (dice default_account 0 100 0 0).balance = default_account.balance :=
  (c9_dice default_account 0 100 0 0 (by decide)).1 rfl

/-- C10 (counterexample): a drawn card does not always increase the reduced
hand value: the hand [11, 5] is worth 16, and drawing a 6 gives [11, 5, 6]
worth 12 — the soft ace hardens and the value drops. -/
theorem c10_counterexample :
    get_hand_value [11, 5] = 16 ∧ get_hand_value [11, 5, 6] = 12 ∧
      get_hand_value [11, 5, 6] < get_hand_value [11, 5] + 1 := by
  refine ⟨by decide, by decide, by decide⟩

/-- C10 (amended): the dealer loop terminates because the reduced hand value
is at least the number of cards held (every card contributes at least 1 after
reduction), so fuel 17 always suffices, and on exit the dealer's reduced hand
total is at least 17. -/
theorem c10_dealer :
    (∀ cards : List Nat, (∀ c ∈ cards, 1 ≤ c) → cards.length ≤ get_hand_value cards) ∧
    (∀ rs : Nat → Nat, ∃ final,
      dealer_draw 17 (fun n => get_card_value (rs (2 + n)))
          [get_card_value (rs 2), get_card_value (rs 3)] = some final ∧
        17 ≤ get_hand_value final) := by
  constructor
  · exact hand_value_ge_length
  · intro rs
    refine dealer_draw_terminates 17 _ _ ?_ ?_ ?_
    · intro c hc
      simp only [List.mem_cons, List.not_mem_nil, or_false] at hc
      rcases hc with h | h <;> (subst h; exact one_le_get_card_value _)
    · intro n
      exact one_le_get_card_value _
    · simp

/-- C10 witness: a hand of two cards is worth at least its card count. -/
theorem c10_dealer_witness : ([5, 5] : List Nat).length ≤ get_hand_value [5, 5] :=
  c10_dealer.1 [5, 5] (by decide)

end Casino
